import Mathlib

/-
Verification of the rhythm-game engine in src/components/RhythmGame.tsx of
the mp3gamegenerator repository. Times and pixel coordinates are modelled as
rationals; the React state hooks and the startTime ref are gathered into one
GameState record, and each event handler becomes a state-passing function.
Canvas drawing and audio-element calls touch no modelled state and are
omitted from the step functions.
-/

namespace RhythmGame

/-- Direction values of the ARROW_KEYS table. -/
inductive Direction where
  | LEFT
  | UP
  | RIGHT
  | DOWN
deriving DecidableEq, Repr

/-- The ARROW_KEYS lookup table (RhythmGame.tsx lines 6-11). JavaScript
indexing with a key outside the table yields undefined, modelled by none. -/
def ARROW_KEYS (code : ℕ) : Option Direction :=
  if code = 37 then some Direction.LEFT
  else if code = 38 then some Direction.UP
  else if code = 39 then some Direction.RIGHT
  else if code = 40 then some Direction.DOWN
  else none

/-- A note (interface Note, lines 15-19). The direction field is an Option
because the undefined value produced by an unmapped pitch is stored as is. -/
structure Note where
  time : ℚ
  direction : Option Direction
  y : ℚ
deriving DecidableEq, Repr

/-- One note event of the parsed MIDI object: start time in seconds and the
midi pitch number. -/
structure MidiEvent where
  time : ℚ
  midi : ℕ
deriving DecidableEq, Repr

/-- Mapping of the first-track note events to notes (lines 58-62). -/
def parseNotes (events : List MidiEvent) : List Note :=
  events.map fun note =>
    { time := note.time, direction := ARROW_KEYS note.midi, y := -100 }

/-- Body of the loadMidi effect (lines 51-70). The fetch-and-parse part is
summarised by an Except value; the catch branch logs the error (returned as
the second component) and leaves the previous notes state untouched, since
setNotes is never reached on that path. The function is total, so no error
escapes to the caller. -/
def loadMidi (fetched : Except String (List MidiEvent)) (prevNotes : List Note) :
    List Note × Option String :=
  match fetched with
  | Except.ok events => (parseNotes events, none)
  | Except.error e => (prevNotes, some e)

/-- Component state: the notes, isPlaying and score hooks (lines 24-26)
together with startTimeRef.current (line 28), where 0 means unset. -/
structure GameState where
  notes : List Note
  isPlaying : Bool
  score : ℕ
  startTime : ℚ
deriving DecidableEq, Repr

/-- State at component mount: empty notes, not playing, score 0, ref 0. -/
def initialState : GameState :=
  { notes := [], isPlaying := false, score := 0, startTime := 0 }

/-- The hitWindow constant of line 77, 0.15 seconds. -/
def hitWindow : ℚ := 15 / 100

/-- Elapsed seconds as computed by handleKeyDown on line 76, from Date.now
in epoch milliseconds. -/
def judgeCurrentTime (dateNow startTime : ℚ) : ℚ :=
  (dateNow - startTime) / 1000

/-- Eligibility test of the findIndex callback (lines 80-83). -/
def noteMatches (keyCode : ℕ) (currentTime : ℚ) (note : Note) : Bool :=
  decide (ARROW_KEYS keyCode = note.direction ∧
    |note.time - currentTime| < hitWindow)

/-- Index-aware filter of line 87: keep an element exactly when its running
index differs from noteIndex. -/
def filterIdxNe (noteIndex : ℕ) : ℕ → List Note → List Note
  | _, [] => []
  | i, n :: rest =>
      if i = noteIndex then filterIdxNe noteIndex (i + 1) rest
      else n :: filterIdxNe noteIndex (i + 1) rest

/-- Removal performed on line 87, starting the running index at 0. -/
def removeAtIndex (l : List Note) (noteIndex : ℕ) : List Note :=
  filterIdxNe noteIndex 0 l

/-- handleKeyDown (lines 73-89): return unchanged when not playing,
otherwise compute currentTime from Date.now, look for the first eligible
note, and on a find add 100 to the score and delete that single index. -/
def handleKeyDown (keyCode : ℕ) (dateNow : ℚ) (s : GameState) : GameState :=
  if s.isPlaying = false then s
  else
    let currentTime := judgeCurrentTime dateNow s.startTime
    match s.notes.findIdx? (noteMatches keyCode currentTime) with
    | some noteIndex =>
        { s with
            score := s.score + 100,
            notes := removeAtIndex s.notes noteIndex }
    | none => s

/-- The speed constant of the game loop (line 97), pixels per second. -/
def speed : ℚ := 200

/-- Vertical position assigned to every note on each frame (line 152). -/
def noteY (time currentTime canvasHeight : ℚ) : ℚ :=
  (time - currentTime) * speed + canvasHeight - 50

/-- Elapsed seconds as computed by gameLoop on lines 133-134, from the
animation-frame timestamp in milliseconds since the page time origin. -/
def renderCurrentTime (timestamp startTime : ℚ) : ℚ :=
  (timestamp - startTime) / 1000

/-- State update of one gameLoop frame (lines 128-153): latch the frame
timestamp when startTimeRef.current is still 0 (falsy), then recompute the
y of every note. The effect of line 92 returns without scheduling the loop
when isPlaying is false, modelled by the guard. -/
def gameLoopStep (timestamp canvasHeight : ℚ) (s : GameState) : GameState :=
  if s.isPlaying = false then s
  else
    let startT := if s.startTime = 0 then timestamp else s.startTime
    let currentTime := renderCurrentTime timestamp startT
    { s with
        startTime := startT,
        notes := s.notes.map fun note =>
          { note with y := noteY note.time currentTime canvasHeight } }

/-- handleStart (lines 171-179): set isPlaying, reset the score, clear
startTimeRef. The audio element is rewound and started, which touches no
modelled state; setNotes is not called here. -/
def handleStart (s : GameState) : GameState :=
  { s with isPlaying := true, score := 0, startTime := 0 }

/-- Relation between the two JavaScript clocks: Date.now counts epoch
milliseconds while an animation-frame timestamp counts milliseconds since
the page time origin, so at the instant whose frame timestamp is
perfTimestamp the value of Date.now is perfTimestamp + epochOffset, with
epochOffset the page time origin expressed in epoch milliseconds. -/
def dateNowAt (perfTimestamp epochOffset : ℚ) : ℚ :=
  perfTimestamp + epochOffset

/-- One externally triggered event of the component. -/
inductive Action where
  | load (fetched : Except String (List MidiEvent))
  | start
  | key (keyCode : ℕ) (dateNow : ℚ)
  | frame (timestamp canvasHeight : ℚ)

/-- Effect of one event on the component state. -/
def step : Action → GameState → GameState
  | Action.load fetched, s => { s with notes := (loadMidi fetched s.notes).1 }
  | Action.start, s => handleStart s
  | Action.key keyCode dateNow, s => handleKeyDown keyCode dateNow s
  | Action.frame timestamp canvasHeight, s => gameLoopStep timestamp canvasHeight s

/-- States reachable from the mount state through event steps. -/
inductive Reachable : GameState → Prop where
  | init : Reachable initialState
  | next (a : Action) {s : GameState} : Reachable s → Reachable (step a s)

/-- Helper: the index-aware filter keeps the whole list when every running
index exceeds the removal target. -/
theorem filterIdxNe_of_lt (noteIndex : ℕ) (l : List Note) :
    ∀ k : ℕ, noteIndex < k → filterIdxNe noteIndex k l = l := by
  induction l with
  | nil => intro k _; rfl
  | cons n rest ih =>
      intro k hk
      have hne : ¬ k = noteIndex := by omega
      simp only [filterIdxNe, if_neg hne]
      rw [ih (k + 1) (by omega)]

/-- Helper: the index-aware filter starting at a running index below the
target removes exactly the element at the target offset. -/
theorem filterIdxNe_eq_eraseIdx (noteIndex : ℕ) (l : List Note) :
    ∀ k : ℕ, k ≤ noteIndex →
      filterIdxNe noteIndex k l = l.eraseIdx (noteIndex - k) := by
  induction l with
  | nil => intro k _; rfl
  | cons n rest ih =>
      intro k hk
      by_cases hke : k = noteIndex
      · subst hke
        simp only [filterIdxNe, if_pos rfl, Nat.sub_self, List.eraseIdx]
        exact filterIdxNe_of_lt k rest (k + 1) (by omega)
      · have hlt : k < noteIndex := by omega
        have hsub : noteIndex - k = (noteIndex - (k + 1)) + 1 := by omega
        simp only [filterIdxNe, if_neg hke, hsub, List.eraseIdx]
        rw [ih (k + 1) (by omega)]

/-- Helper: removal at an index agrees with List.eraseIdx. -/
theorem removeAtIndex_eq_eraseIdx (l : List Note) (noteIndex : ℕ) :
    removeAtIndex l noteIndex = l.eraseIdx noteIndex := by
  have h := filterIdxNe_eq_eraseIdx noteIndex l 0 (Nat.zero_le _)
  simpa [removeAtIndex] using h

/-- Helper: findIdx? returns the index of the first element satisfying the
test when a satisfying element exists and all earlier ones fail it. -/
theorem findIdx?_first {α : Type} (p : α → Bool) (l : List α) :
    ∀ (i : ℕ) (h : i < l.length), p (l.get ⟨i, h⟩) = true →
      (∀ (j : ℕ) (hj : j < i), p (l.get ⟨j, Nat.lt_trans hj h⟩) = false) →
      l.findIdx? p = some i := by
  induction l with
  | nil => intro i h; exact absurd h (by simp)
  | cons a rest ih =>
      intro i h hp hmin
      cases i with
      | zero =>
          simp only [List.get] at hp
          simp [List.findIdx?_cons, hp]
      | succ j =>
          have ha : p a = false := hmin 0 (Nat.succ_pos j)
          have hrest : rest.findIdx? p = some j := by
            refine ih j (by simpa using h) (by simpa using hp) ?_
            intro m hm
            have := hmin (m + 1) (by omega)
            simpa using this
          simp [List.findIdx?_cons, ha, hrest]

/-- Helper: a single event changes the score only by leaving it, adding
exactly 100 on a key event, or resetting it to 0 on start. -/
theorem step_score_cases (a : Action) (s : GameState) :
    (step a s).score = s.score ∨
      ((step a s).score = s.score + 100 ∧ ∃ k d, a = Action.key k d) ∨
      ((step a s).score = 0 ∧ a = Action.start) := by
  cases a with
  | load fetched => exact Or.inl rfl
  | start => exact Or.inr (Or.inr ⟨rfl, rfl⟩)
  | key keyCode dateNow =>
      unfold step handleKeyDown
      by_cases hp : s.isPlaying = false
      · simp [hp]
      · simp only [if_neg hp]
        cases hidx : s.notes.findIdx?
            (noteMatches keyCode (judgeCurrentTime dateNow s.startTime)) with
        | none => exact Or.inl rfl
        | some noteIndex => exact Or.inr (Or.inl ⟨rfl, keyCode, dateNow, rfl⟩)
  | frame timestamp canvasHeight =>
      unfold step gameLoopStep
      by_cases hp : s.isPlaying = false
      · simp [hp]
      · simp [hp]

/-- Helper: the score of every reachable state is a multiple of 100. -/
theorem reachable_score_mod (s : GameState) (hs : Reachable s) :
    s.score % 100 = 0 := by
  induction hs with
  | init => rfl
  | next a s ih =>
      rcases step_score_cases a _ with h | ⟨h, _⟩ | ⟨h, _⟩
      · rw [h]; exact ih
      · rw [h]; omega
      · rw [h]

/-- C1 counterexample: load a one-note track, start, hit the note, then
start again; the claim says the second start restores the full parsed note
list, but the state after the second start still has the empty note list. -/
theorem c1_counterexample :
    (step Action.start
        (step (Action.key 38 3000)
          (step (Action.frame 1000 600)
            (step Action.start
              (step (Action.load (Except.ok [{ time := 2, midi := 38 }]))
                initialState))))).notes ≠
      parseNotes [{ time := 2, midi := 38 }] := by
  have h1 : step (Action.load (Except.ok [{ time := 2, midi := 38 }])) initialState =
      { notes := [{ time := 2, direction := some Direction.UP, y := -100 }],
        isPlaying := false, score := 0, startTime := 0 } := by
    norm_num [step, loadMidi, parseNotes, initialState, ARROW_KEYS]
  have h2 : step Action.start
      { notes := [{ time := 2, direction := some Direction.UP, y := -100 }],
        isPlaying := false, score := 0, startTime := (0 : ℚ) } =
      { notes := [{ time := 2, direction := some Direction.UP, y := -100 }],
        isPlaying := true, score := 0, startTime := 0 } := by
    simp [step, handleStart]
  have h3 : step (Action.frame 1000 600)
      { notes := [{ time := 2, direction := some Direction.UP, y := -100 }],
        isPlaying := true, score := 0, startTime := (0 : ℚ) } =
      { notes := [{ time := 2, direction := some Direction.UP, y := 950 }],
        isPlaying := true, score := 0, startTime := 1000 } := by
    norm_num [step, gameLoopStep, renderCurrentTime, noteY, speed]
  have h4 : step (Action.key 38 3000)
      { notes := [{ time := 2, direction := some Direction.UP, y := 950 }],
        isPlaying := true, score := 0, startTime := (1000 : ℚ) } =
      { notes := [], isPlaying := true, score := 100, startTime := 1000 } := by
    have hct : judgeCurrentTime 3000 1000 = 2 := by
      norm_num [judgeCurrentTime]
    have hm : noteMatches 38 (judgeCurrentTime 3000 1000)
        { time := 2, direction := some Direction.UP, y := 950 } = true := by
      rw [hct]
      norm_num [noteMatches, ARROW_KEYS, hitWindow]
    norm_num [step, handleKeyDown, List.findIdx?_cons, hm, removeAtIndex, filterIdxNe]
  rw [h1, h2, h3, h4]
  norm_num [step, handleStart, parseNotes, ARROW_KEYS]

/-- C1 amended: handleStart sets isPlaying, resets the score to 0 and clears
the start timestamp, but leaves the active note list exactly as it was, so
notes hit in a prior session stay removed. -/
theorem c1_start_resets_score_not_notes (s : GameState) :
    (handleStart s).score = 0 ∧ (handleStart s).isPlaying = true ∧
      (handleStart s).startTime = 0 ∧ (handleStart s).notes = s.notes := by
  refine ⟨rfl, rfl, rfl, rfl⟩

/-- C2: the two elapsed-time computations disagree whenever the page time
origin is not the Unix epoch. The input judge feeds Date.now (epoch
milliseconds) into its subtraction while the render loop feeds the
animation-frame timestamp (milliseconds since the page time origin), both
subtracting the same latched start value, so the judge reads epochOffset/1000
seconds more than the renderer at the same physical instant; at the concrete
instant below the judge reads 1735689601 seconds while the renderer reads 1. -/
theorem c2_two_timebases :
    (∀ perfTimestamp epochOffset startTime : ℚ,
        judgeCurrentTime (dateNowAt perfTimestamp epochOffset) startTime -
          renderCurrentTime perfTimestamp startTime = epochOffset / 1000) ∧
      judgeCurrentTime (dateNowAt 2000 1735689600000) 1000 = 1735689601 ∧
      renderCurrentTime 2000 1000 = 1 := by
  refine ⟨?_, ?_, ?_⟩
  · intro a b c
    simp only [judgeCurrentTime, renderCurrentTime, dateNowAt]
    ring
  · norm_num [judgeCurrentTime, dateNowAt]
  · norm_num [renderCurrentTime]

/-- C3: for a note whose direction equals the key-table image of the pressed
key, the eligibility test of the input judge succeeds exactly when the
absolute gap between note time and the computed elapsed time is strictly
below 0.15 seconds; in particular a gap of 0.149 passes and 0.151 fails. -/
theorem c3_hit_window (note : Note) (keyCode : ℕ) (currentTime : ℚ)
    (hdir : ARROW_KEYS keyCode = note.direction) :
    (noteMatches keyCode currentTime note = true ↔
        |note.time - currentTime| < 15 / 100) ∧
      noteMatches keyCode (note.time + 149 / 1000) note = true ∧
      noteMatches keyCode (note.time + 151 / 1000) note = false := by
  refine ⟨?_, ?_, ?_⟩
  · simp [noteMatches, hitWindow, hdir]
  · simp only [noteMatches, hitWindow, decide_eq_true_eq]
    refine ⟨hdir, ?_⟩
    have h : note.time - (note.time + 149 / 1000) = -(149 / 1000) := by ring
    rw [h, abs_neg, abs_of_nonneg (by norm_num)]
    norm_num
  · simp only [noteMatches, hitWindow, decide_eq_false_iff_not, not_and]
    intro _
    have h : note.time - (note.time + 151 / 1000) = -(151 / 1000) := by ring
    rw [h, abs_neg, abs_of_nonneg (by norm_num)]
    norm_num

/-- C3 witness: the boundary property instantiated at an Up note at time 2
and keyCode 38 with elapsed time 2. -/
theorem c3_hit_window_witness :
    (noteMatches 38 2 { time := 2, direction := some Direction.UP, y := -100 } = true ↔
        |(2 : ℚ) - 2| < 15 / 100) ∧
      noteMatches 38 ((2 : ℚ) + 149 / 1000)
        { time := 2, direction := some Direction.UP, y := -100 } = true ∧
      noteMatches 38 ((2 : ℚ) + 151 / 1000)
        { time := 2, direction := some Direction.UP, y := -100 } = false :=
  c3_hit_window { time := 2, direction := some Direction.UP, y := -100 } 38 2
    (by norm_num [ARROW_KEYS])

/-- C4: when no session is active the input changes nothing; when a first
eligible note exists at index i (all earlier indices fail the test) the
score grows by exactly 100 and exactly that index is removed, the rest of
the list surviving in order; when no note is eligible the state is returned
unchanged and no error is raised (the function is total). -/
theorem c4_input_judge (keyCode : ℕ) (dateNow : ℚ) (s : GameState) :
    (s.isPlaying = false → handleKeyDown keyCode dateNow s = s) ∧
      (∀ (i : ℕ) (h : i < s.notes.length),
        s.isPlaying = true →
        noteMatches keyCode (judgeCurrentTime dateNow s.startTime)
            (s.notes.get ⟨i, h⟩) = true →
        (∀ (j : ℕ) (hj : j < i),
          noteMatches keyCode (judgeCurrentTime dateNow s.startTime)
              (s.notes.get ⟨j, Nat.lt_trans hj h⟩) = false) →
        (handleKeyDown keyCode dateNow s).score = s.score + 100 ∧
          (handleKeyDown keyCode dateNow s).notes =
            s.notes.take i ++ s.notes.drop (i + 1) ∧
          (handleKeyDown keyCode dateNow s).isPlaying = s.isPlaying ∧
          (handleKeyDown keyCode dateNow s).startTime = s.startTime) ∧
      ((∀ note ∈ s.notes,
          noteMatches keyCode (judgeCurrentTime dateNow s.startTime) note = false) →
        handleKeyDown keyCode dateNow s = s) := by
  refine ⟨?_, ?_, ?_⟩
  · intro hp
    simp [handleKeyDown, hp]
  · intro i h hp hi hmin
    have hnp : ¬ s.isPlaying = false := by simp [hp]
    have hfind : s.notes.findIdx?
        (noteMatches keyCode (judgeCurrentTime dateNow s.startTime)) = some i :=
      findIdx?_first _ s.notes i h hi hmin
    simp only [handleKeyDown, if_neg hnp, hfind]
    refine ⟨trivial, ?_, trivial, trivial⟩
    rw [removeAtIndex_eq_eraseIdx, List.eraseIdx_eq_take_drop_succ]
  · intro hall
    by_cases hp : s.isPlaying = false
    · simp [handleKeyDown, hp]
    · have hfind : s.notes.findIdx?
          (noteMatches keyCode (judgeCurrentTime dateNow s.startTime)) = none := by
        rw [List.findIdx?_eq_none_iff]
        exact hall
      simp [handleKeyDown, if_neg hp, hfind]

/-- C4 witness: a playing state with one Up note at time 2, key 38 pressed
with Date.now 3000 and start value 1000 (elapsed 2), gains 100 points and
loses exactly that note. -/
theorem c4_input_judge_witness :
    (handleKeyDown 38 3000
        { notes := [{ time := 2, direction := some Direction.UP, y := -100 }],
          isPlaying := true, score := 0, startTime := 1000 }).score = 0 + 100 ∧
      (handleKeyDown 38 3000
          { notes := [{ time := 2, direction := some Direction.UP, y := -100 }],
            isPlaying := true, score := 0, startTime := 1000 }).notes =
        [{ time := 2, direction := some Direction.UP, y := -100 }].take 0 ++
          [{ time := 2, direction := some Direction.UP, y := -100 }].drop (0 + 1) ∧
      (handleKeyDown 38 3000
          { notes := [{ time := 2, direction := some Direction.UP, y := -100 }],
            isPlaying := true, score := 0, startTime := 1000 }).isPlaying = true ∧
      (handleKeyDown 38 3000
          { notes := [{ time := 2, direction := some Direction.UP, y := -100 }],
            isPlaying := true, score := 0, startTime := 1000 }).startTime = 1000 :=
  (c4_input_judge 38 3000
      { notes := [{ time := 2, direction := some Direction.UP, y := -100 }],
        isPlaying := true, score := 0, startTime := 1000 }).2.1 0 (by norm_num) rfl
    (by norm_num [noteMatches, judgeCurrentTime, hitWindow, ARROW_KEYS])
    (fun j hj => absurd hj (Nat.not_lt_zero j))

/-- C5: one frame at a playing state rewrites every note's y to
(time - currentTime) * 200 + canvasHeight - 50 with currentTime derived from
the latched start value, and that expression equals canvasHeight - 50 exactly
when the elapsed time equals the note time; the canvas width never enters. -/
theorem c5_note_position (s : GameState) (timestamp canvasHeight : ℚ)
    (hp : s.isPlaying = true) :
    ((gameLoopStep timestamp canvasHeight s).notes =
        s.notes.map fun note =>
          { note with
              y := (note.time - renderCurrentTime timestamp
                      (if s.startTime = 0 then timestamp else s.startTime)) * 200 +
                    canvasHeight - 50 }) ∧
      ∀ time currentTime : ℚ,
        (noteY time currentTime canvasHeight = canvasHeight - 50 ↔
          currentTime = time) := by
  constructor
  · have hnp : ¬ s.isPlaying = false := by simp [hp]
    simp [gameLoopStep, if_neg hnp, noteY, speed]
  · intro time currentTime
    unfold noteY speed
    constructor
    · intro h
      nlinarith [h]
    · intro h
      rw [h]
      ring

/-- C5 witness: a frame at timestamp 1000 on a fresh playing state with one
Up note at time 2 and canvas height 600 places the note at y 950. -/
theorem c5_note_position_witness :
    (gameLoopStep 1000 600
        { notes := [{ time := 2, direction := some Direction.UP, y := -100 }],
          isPlaying := true, score := 0, startTime := 0 }).notes =
      [{ time := 2, direction := some Direction.UP, y := 950 }] := by
  have h := (c5_note_position
      { notes := [{ time := 2, direction := some Direction.UP, y := -100 }],
        isPlaying := true, score := 0, startTime := 0 } 1000 600 rfl).1
  rw [h]
  norm_num [renderCurrentTime]

/-- C6: every reachable state has a score divisible by 100; no event other
than start can lower the score; and every single event leaves the score
unchanged, adds exactly 100 (only a key event), or resets it to 0 (only the
start event). -/
theorem c6_score_invariant (s : GameState) (hs : Reachable s) :
    s.score % 100 = 0 ∧
      (∀ a : Action, a ≠ Action.start → s.score ≤ (step a s).score) ∧
      ∀ a : Action,
        (step a s).score = s.score ∨
          ((step a s).score = s.score + 100 ∧ ∃ k d, a = Action.key k d) ∨
          ((step a s).score = 0 ∧ a = Action.start) := by
  refine ⟨reachable_score_mod s hs, ?_, fun a => step_score_cases a s⟩
  intro a ha
  rcases step_score_cases a s with h | ⟨h, _⟩ | ⟨_, h⟩
  · omega
  · omega
  · exact absurd h ha

/-- C6 witness: the invariant instantiated at the mount state. -/
theorem c6_score_invariant_witness : initialState.score % 100 = 0 :=
  (c6_score_invariant initialState Reachable.init).1

/-- C7: a failed fetch or parse at the mount state (whose note list is the
initial empty list) yields the empty note list together with a logged error;
loadMidi is a total function, so no error propagates to the caller and the
game remains playable with zero notes. -/
theorem c7_load_failure (e : String) :
    loadMidi (Except.error e) initialState.notes = (([] : List Note), some e) := by
  rfl

/-- C8: parsing keeps one note per event of the first track in order, with
the event start time as the note time and the direction given by the
four-entry table sending 37, 38, 39, 40 to Left, Up, Right, Down; any other
pitch is outside the table, receives the absent direction, and the note is
still inserted. -/
theorem c8_parse_notes (events : List MidiEvent) (i : ℕ) (h : i < events.length) :
    (parseNotes events).length = events.length ∧
      (parseNotes events).get ⟨i, by simpa [parseNotes] using h⟩ =
        { time := (events.get ⟨i, h⟩).time,
          direction := ARROW_KEYS (events.get ⟨i, h⟩).midi, y := -100 } ∧
      ARROW_KEYS 37 = some Direction.LEFT ∧
      ARROW_KEYS 38 = some Direction.UP ∧
      ARROW_KEYS 39 = some Direction.RIGHT ∧
      ARROW_KEYS 40 = some Direction.DOWN ∧
      ∀ midi : ℕ, (37 ≤ midi ∧ midi ≤ 40) ∨ ARROW_KEYS midi = none := by
  refine ⟨by simp [parseNotes], by simp [parseNotes], rfl, rfl, rfl, rfl, ?_⟩
  intro midi
  unfold ARROW_KEYS
  split_ifs with h1 h2 h3 h4
  · exact Or.inl (by omega)
  · exact Or.inl (by omega)
  · exact Or.inl (by omega)
  · exact Or.inl (by omega)
  · exact Or.inr rfl

/-- C8 witness: a two-event track whose second pitch 50 is outside the
table parses to two notes, the second carrying the absent direction. -/
theorem c8_parse_notes_witness :
    (parseNotes [{ time := 3 / 2, midi := 39 }, { time := 2, midi := 50 }]).get
        ⟨1, by simp [parseNotes]⟩ =
      { time := 2, direction := ARROW_KEYS 50, y := -100 } :=
  (c8_parse_notes [{ time := 3 / 2, midi := 39 }, { time := 2, midi := 50 }] 1
      (by norm_num)).2.1

/-- C9 counterexample: with a canvas of height 600, a Left note at time 5
observed at elapsed time 6 sits at y 350, which is not negative, against the
claim that its vertical position is negative at that instant. -/
theorem c9_counterexample :
    (gameLoopStep 7000 600
        { notes := [{ time := 5, direction := some Direction.LEFT, y := -100 }],
          isPlaying := true, score := 0, startTime := 1000 }).notes =
      [{ time := 5, direction := some Direction.LEFT, y := 350 }] ∧
      ¬ (350 : ℚ) < 0 := by
  constructor
  · norm_num [gameLoopStep, renderCurrentTime, noteY, speed]
  · norm_num

/-- C9 amended: at elapsed time 6 the Left note of time 5 sits at
canvasHeight - 250, strictly above the hit line canvasHeight - 50; that
value is negative exactly when the canvas height is below 250; and a frame
never removes a note, so the missed note is still present (the frame keeps
the note count of every state). -/
theorem c9_missed_note (canvasHeight startTime y0 : ℚ) (score : ℕ)
    (hst : startTime ≠ 0) :
    (gameLoopStep (startTime + 6000) canvasHeight
        { notes := [{ time := 5, direction := some Direction.LEFT, y := y0 }],
          isPlaying := true, score := score, startTime := startTime }).notes =
      [{ time := 5, direction := some Direction.LEFT, y := canvasHeight - 250 }] ∧
      canvasHeight - 250 < canvasHeight - 50 ∧
      (canvasHeight - 250 < 0 ↔ canvasHeight < 250) ∧
      ∀ (timestamp ch : ℚ) (t : GameState),
        (gameLoopStep timestamp ch t).notes.length = t.notes.length := by
  refine ⟨?_, by norm_num, by constructor <;> (intro h; linarith), ?_⟩
  · have hct : renderCurrentTime (startTime + 6000) startTime = 6 := by
      simp only [renderCurrentTime]
      ring_nf
    have hy : noteY 5 6 canvasHeight = canvasHeight - 250 := by
      unfold noteY speed
      ring
    simp only [gameLoopStep, if_neg (by norm_num : ¬ (true : Bool) = false),
      if_neg hst, hct, List.map_cons, List.map_nil, hy]
  · intro timestamp ch t
    unfold gameLoopStep
    by_cases hp : t.isPlaying = false
    · simp [hp]
    · simp [hp]

/-- C9 witness: a 100-pixel-high canvas at the same instant puts the missed
note at y -150 while it is still in the list. -/
theorem c9_missed_note_witness :
    (gameLoopStep ((1000 : ℚ) + 6000) 100
        { notes := [{ time := 5, direction := some Direction.LEFT, y := -100 }],
          isPlaying := true, score := 0, startTime := 1000 }).notes =
      [{ time := 5, direction := some Direction.LEFT, y := (100 : ℚ) - 250 }] :=
  (c9_missed_note 100 1000 (-100) 0 (by norm_num)).1

/-- C10: a note parsed from a pitch outside the table carries the absent
direction, and a key event whose keyCode is also outside the table maps to
the same absent value, so inside the hit window the judge counts it as a
match: the score grows by 100 and the note is removed. -/
theorem c10_unmapped_pitch_matchable (pitch keyCode : ℕ) (time dateNow startTime : ℚ)
    (score : ℕ) (hpitch : ARROW_KEYS pitch = none) (hkey : ARROW_KEYS keyCode = none)
    (hwin : |time - judgeCurrentTime dateNow startTime| < 15 / 100) :
    handleKeyDown keyCode dateNow
        { notes := parseNotes [{ time := time, midi := pitch }],
          isPlaying := true, score := score, startTime := startTime } =
      { notes := [], isPlaying := true, score := score + 100,
        startTime := startTime } := by
  have hnote : parseNotes [{ time := time, midi := pitch }] =
      [{ time := time, direction := none, y := -100 }] := by
    simp [parseNotes, hpitch]
  have hm : noteMatches keyCode (judgeCurrentTime dateNow startTime)
      { time := time, direction := none, y := -100 } = true := by
    simp only [noteMatches, hitWindow, decide_eq_true_eq]
    refine ⟨hkey, ?_⟩
    convert hwin using 2
  simp [handleKeyDown, hnote, List.findIdx?_cons, hm, removeAtIndex, filterIdxNe]

/-- C10 witness: pitch 41 and keyCode 13 are both outside the table; with
start value 1000 and Date.now 3000 the elapsed time 2 matches the note at
time 2, giving 100 points and an empty list. -/
theorem c10_unmapped_pitch_matchable_witness :
    handleKeyDown 13 3000
        { notes := parseNotes [{ time := 2, midi := 41 }],
          isPlaying := true, score := 0, startTime := 1000 } =
      { notes := [], isPlaying := true, score := 0 + 100, startTime := 1000 } :=
  c10_unmapped_pitch_matchable 41 13 2 3000 1000 0 rfl rfl
    (by norm_num [judgeCurrentTime])

end RhythmGame
